import Mathlib

/-!
Verification of the annotation-aggregation core of
`scripts/extract_annotations.py`: a shallow embedding of the vocabulary
hierarchy loader, the identifier mappings, the three backend
post-processing loops, the concurrent fan-out/fan-in collection, the
deduplicator and the stdin/stdout envelope, together with theorems about
the specified properties.

Python dicts are modelled as insertion-ordered association lists
(`List (String × α)`) with in-place update on an existing key, which is
exactly the CPython dict semantics the script relies on.  Python values
appearing in annotation dicts are modelled by the flat `JValue` type
(strings, rationals for the float scores, booleans).  A backend raising
an exception is an `Except.error` carrying the message; a backend that
never terminates is `Option.none` at the future level.
-/

namespace ExtractAnnotations

/-- A Python value stored in an annotation dict: string, number or bool. -/
inductive JValue where
  | jstr  : String → JValue
  | jnum  : ℚ → JValue
  | jbool : Bool → JValue
  deriving DecidableEq

/-- A Python dict, as the ordered list of its key/value pairs. -/
abbrev PyDict := List (String × JValue)

/-- `d.get(k)`: first value bound to `k`, if any. -/
def dictGet {α : Type} : List (String × α) → String → Option α
  | [], _ => none
  | (k, v) :: rest, k0 => if k = k0 then some v else dictGet rest k0

/-- `d.get(k, dflt)`. -/
def dictGetD {α : Type} (d : List (String × α)) (k : String) (dflt : α) : α :=
  (dictGet d k).getD dflt

/-- `d[k] = v`: update in place if the key is present, else append.
This is CPython semantics: an update keeps the key's original position. -/
def dictInsert {α : Type} : List (String × α) → String → α → List (String × α)
  | [], k, v => [(k, v)]
  | (k0, v0) :: rest, k, v =>
      if k0 = k then (k, v) :: rest else (k0, v0) :: dictInsert rest k v

/-- `list(d.keys())`. -/
def dictKeys {α : Type} (d : List (String × α)) : List String :=
  d.map Prod.fst

/-! ## Deduplication (lines 246–253 of `extract_annotations.py`) -/

/-- The dedup key `(ann["text"], ann["vocabulary_id"])`.  The components
are `Option` because our dict lookup is total; faithfulness to the Python
(`ann["text"]` raises on a missing key) is recovered by the
`hasDedupFields` hypothesis where it matters. -/
def annKey (a : PyDict) : Option JValue × Option JValue :=
  (dictGet a "text", dictGet a "vocabulary_id")

/-- The annotation dict carries both components of the dedup key, so the
Python key expression would not raise. -/
def hasDedupFields (a : PyDict) : Bool :=
  (dictGet a "text").isSome && (dictGet a "vocabulary_id").isSome

/-- The dedup loop: `seen` accumulates keys already kept. -/
def dedupGo (seen : List (Option JValue × Option JValue)) :
    List PyDict → List PyDict
  | [] => []
  | a :: rest =>
      if annKey a ∈ seen then dedupGo seen rest
      else a :: dedupGo (annKey a :: seen) rest

/-- `deduped` as computed from `raw_results`. -/
def dedupAnns (raw : List PyDict) : List PyDict :=
  dedupGo [] raw

/-- The merged output of the aggregator on per-backend result lists given
in backend-declared order. -/
def mergeBackends (perBackend : List (List PyDict)) : List PyDict :=
  dedupAnns perBackend.flatten

/-! ## Fan-in collection (lines 229–253) -/

/-- A terminal backend outcome: the result list, or the message of the
exception the backend raised. -/
abbrev Outcome := Except String (List PyDict)

/-- One `try/except` block of the collection loop: extend `raw_results`
on success, emit one diagnostic line on failure. -/
def collectOne (acc : List PyDict × List String) (name : String)
    (fut : Outcome) : List PyDict × List String :=
  match fut with
  | .ok r => (acc.1 ++ r, acc.2)
  | .error e => (acc.1, acc.2 ++ [name ++ " extraction failed: " ++ e])

/-- `extract_annotations` after all three futures reached a terminal
state: collect in declared order (GLiNER, MeSH, T2T), then dedup.
Returns the result list together with the stderr diagnostic lines. -/
def extract_annotations_model (og om ot : Outcome) :
    List PyDict × List String :=
  let acc := collectOne (collectOne (collectOne ([], []) "GLiNER" og) "MeSH" om) "T2T" ot
  (dedupAnns acc.1, acc.2)

/-- The per-backend result lists of the successful backends, in declared
order, failures skipped. -/
def successLists (backends : List (String × Outcome)) : List (List PyDict) :=
  backends.filterMap fun p =>
    match p.2 with
    | .ok r => some r
    | .error _ => none

/-- The diagnostic line of each failing backend, in declared order. -/
def failureLines (backends : List (String × Outcome)) : List String :=
  backends.filterMap fun p =>
    match p.2 with
    | .ok _ => none
    | .error e => some (p.1 ++ " extraction failed: " ++ e)

/-- `future.result()` with no timeout argument: blocks until the future
is terminal, i.e. diverges (`none`) when the backend never terminates. -/
def extract_annotationsPool (og om ot : Option Outcome) :
    Option (List PyDict × List String) :=
  match og, om, ot with
  | some a, some b, some c => some (extract_annotations_model a b c)
  | _, _, _ => none

/-! ## Completion-order model (lines 223–228)

The thread pool completes the three futures in some order; the collection
loop nevertheless reads the futures by identity (`gliner_future`,
`mesh_future`, `t2t_future`), in declared order.  Backend `0` is GLiNER,
`1` is MeSH, `2` is T2T. -/

/-- The completion log of one pool run: the tasks in the order the
scheduler finished them, each with its outcome. -/
def completionLog (order : List (Fin 3)) (outs : Fin 3 → Outcome) :
    List (Fin 3 × Outcome) :=
  order.map fun i => (i, outs i)

/-- Reading one future's terminal outcome from the completion log. -/
def lookupFuture (log : List (Fin 3 × Outcome)) (i : Fin 3) : Option Outcome :=
  (log.find? fun p => decide (p.1 = i)).map Prod.snd

/-- `extract_annotations` run under a given completion schedule: the
futures are read in declared order from whatever log the scheduler
produced. -/
def extract_annotations_sched (order : List (Fin 3)) (outs : Fin 3 → Outcome) :
    Option (List PyDict × List String) :=
  match lookupFuture (completionLog order outs) 0,
      lookupFuture (completionLog order outs) 1,
      lookupFuture (completionLog order outs) 2 with
  | some a, some b, some c => some (extract_annotations_model a b c)
  | _, _, _ => none

/-! ## Vocabulary hierarchy (`load_vocabulary_hierarchy`, lines 26–57)

`categories.json` is a three-level tree; the loader touches only the
`id`, `label` and `children` keys, with `children` defaulting to the
empty list (`cat.get("children", [])`) and `id`/`label` raising
`KeyError` when absent, hence the `Option` fields. -/

/-- A term-level raw node. -/
structure RawTerm where
  id? : Option String
  label? : Option String
  deriving DecidableEq

/-- A subcategory-level raw node. -/
structure RawSub where
  id? : Option String
  label? : Option String
  children : List RawTerm
  deriving DecidableEq

/-- A category-level raw node. -/
structure RawCat where
  id? : Option String
  label? : Option String
  children : List RawSub
  deriving DecidableEq

/-- `(category, subcategory, term)` — ids or labels. -/
abbrev Triple := String × String × String

/-- One of the two maps built by the loader. -/
abbrev VDict := List (String × Triple)

/-- The accumulating pair `(vocab_hierarchy, vocab_label_hierarchy)`. -/
abbrev HierAcc := VDict × VDict

/-- Read a mandatory key of a raw node; `KeyError` when absent. -/
def getKey (o : Option String) (k : String) : Except String String :=
  match o with
  | some s => .ok s
  | none => .error ("KeyError: " ++ k)

/-- The inner `for term in sub.get("children", [])` loop. -/
def buildTerms (cid clbl sid slbl : String) :
    List RawTerm → HierAcc → Except String HierAcc
  | [], acc => .ok acc
  | t :: ts, acc =>
      match getKey t.id? "id" with
      | .error e => .error e
      | .ok tid =>
        match getKey t.label? "label" with
        | .error e => .error e
        | .ok tlbl =>
            buildTerms cid clbl sid slbl ts
              (dictInsert acc.1 tid (cid, sid, tid),
               dictInsert acc.2 tid (clbl, slbl, tlbl))

/-- The `for sub in cat.get("children", [])` loop. -/
def buildSubs (cid clbl : String) :
    List RawSub → HierAcc → Except String HierAcc
  | [], acc => .ok acc
  | s :: ss, acc =>
      match getKey s.id? "id" with
      | .error e => .error e
      | .ok sid =>
        match getKey s.label? "label" with
        | .error e => .error e
        | .ok slbl =>
          match buildTerms cid clbl sid slbl s.children
              (dictInsert acc.1 sid (cid, sid, ""),
               dictInsert acc.2 sid (clbl, slbl, "")) with
          | .error e => .error e
          | .ok acc1 => buildSubs cid clbl ss acc1

/-- The outer `for cat in cats` loop. -/
def buildCats : List RawCat → HierAcc → Except String HierAcc
  | [], acc => .ok acc
  | c :: cs, acc =>
      match getKey c.id? "id" with
      | .error e => .error e
      | .ok cid =>
        match getKey c.label? "label" with
        | .error e => .error e
        | .ok clbl =>
          match buildSubs cid clbl c.children
              (dictInsert acc.1 cid (cid, "", ""),
               dictInsert acc.2 cid (clbl, "", "")) with
          | .error e => .error e
          | .ok acc1 => buildCats cs acc1

/-- `load_vocabulary_hierarchy` on an already-parsed `categories.json`:
returns `(vocab_hierarchy, vocab_label_hierarchy)` or the first raised
`KeyError`. -/
def buildHierarchy (cats : List RawCat) : Except String HierAcc :=
  buildCats cats ([], [])

/-- `vocab_label_hierarchy.get(vid, ("", "", ""))` (lines 103–104). -/
def lookupLabels (vlh : VDict) (vid : String) : Triple :=
  dictGetD vlh vid ("", "", "")

/-- Every node of the tree carries both an `id` and a `label`. -/
def termOK (t : RawTerm) : Bool := t.id?.isSome && t.label?.isSome
/-- Completeness of a subcategory node and its terms. -/
def subOK (s : RawSub) : Bool :=
  s.id?.isSome && s.label?.isSome && s.children.all termOK
/-- Completeness of a category node and its subtree. -/
def catOK (c : RawCat) : Bool :=
  c.id?.isSome && c.label?.isSome && c.children.all subOK
/-- Completeness of the whole raw tree. -/
def treeOK (cats : List RawCat) : Bool := cats.all catOK

/-- `Except.ok`-ness as a Bool. -/
def isOkB {ε α : Type} : Except ε α → Bool
  | .ok _ => true
  | .error _ => false

/-- The id-map entries contributed by the terms of one subcategory, in
insertion order. -/
def flatTermsV (cid sid : String) (ts : List RawTerm) : VDict :=
  ts.map fun t => (t.id?.getD "", (cid, sid, t.id?.getD ""))

/-- The label-map entries contributed by the terms of one subcategory. -/
def flatTermsL (clbl slbl : String) (ts : List RawTerm) : VDict :=
  ts.map fun t => (t.id?.getD "", (clbl, slbl, t.label?.getD ""))

/-- The id-map entries contributed by a category's subcategories. -/
def flatSubsV (cid : String) (ss : List RawSub) : VDict :=
  ss.flatMap fun s =>
    (s.id?.getD "", (cid, s.id?.getD "", "")) ::
    flatTermsV cid (s.id?.getD "") s.children

/-- The label-map entries contributed by a category's subcategories. -/
def flatSubsL (clbl : String) (ss : List RawSub) : VDict :=
  ss.flatMap fun s =>
    (s.id?.getD "", (clbl, s.label?.getD "", "")) ::
    flatTermsL clbl (s.label?.getD "") s.children

/-- The id-map entries in traversal (= insertion) order. -/
def flatV (cats : List RawCat) : VDict :=
  cats.flatMap fun c =>
    (c.id?.getD "", (c.id?.getD "", "", "")) :: flatSubsV (c.id?.getD "") c.children

/-- The label-map entries in traversal (= insertion) order. -/
def flatL (cats : List RawCat) : VDict :=
  cats.flatMap fun c =>
    (c.id?.getD "", (c.label?.getD "", "", "")) :: flatSubsL (c.label?.getD "") c.children

/-- All node ids of the raw tree, in traversal order. -/
def hierIds (cats : List RawCat) : List String :=
  (flatL cats).map Prod.fst

/-- Every subcategory and term label of the tree is nonempty (so the
`if sub_lbl == ""`/`elif sub_lbl` branches classify entries by their
actual level). -/
def subTermLabelsNonempty (cats : List RawCat) : Bool :=
  cats.all fun c => c.children.all fun s =>
    decide (¬s.label?.getD "" = "") &&
      s.children.all fun t => decide (¬t.label?.getD "" = "")

/-! ## MeSH identifier mapping (`load_mesh_map`, lines 62–74) -/

/-- One row of a mapping TSV, restricted to the two consumed columns. -/
structure MapRow where
  mesh_id : String
  vocabulary_id : String
  deriving DecidableEq

/-- `load_mesh_map`: fill a dict in row order, later rows overwriting. -/
def load_mesh_map (rows : List MapRow) : List (String × String) :=
  rows.foldl (fun m r => dictInsert m r.mesh_id r.vocabulary_id) []

/-- `mesh_map.get(cui)`: pure lookup, absent for an unmapped id. -/
def resolveMesh (m : List (String × String)) (extId : String) : Option String :=
  dictGet m extId

/-! ## GLiNER label index (lines 84–91) -/

/-- The loop over `vocab_label_hierarchy.items()` building the raw
`labels` list and the `label_to_id` dict. -/
def glinerScanAux (ls : List String) (m : List (String × String)) :
    VDict → List String × List (String × String)
  | [] => (ls, m)
  | (vid, (c, s, t)) :: rest =>
      if s = "" ∧ t = "" then
        glinerScanAux (ls ++ [c]) (dictInsert m c vid) rest
      else if ¬s = "" ∧ t = "" then
        glinerScanAux (ls ++ [s]) (dictInsert m s vid) rest
      else glinerScanAux ls m rest

/-- `labels, label_to_id` before deduplication of `labels`. -/
def glinerScan (vlh : VDict) : List String × List (String × String) :=
  glinerScanAux [] [] vlh

/-- `[l for l in labels if not (l in seen or seen.add(l))]`. -/
def distinctAux (seen : List String) : List String → List String
  | [] => []
  | x :: xs =>
      if x ∈ seen then distinctAux seen xs
      else x :: distinctAux (x :: seen) xs

/-- The label index handed to the GLiNER model. -/
def glinerLabels (vlh : VDict) : List String :=
  distinctAux [] (glinerScan vlh).1

/-- The label index of a raw tree, via the loader. -/
def glinerLabelsOfTree (cats : List RawCat) : Option (List String) :=
  match buildHierarchy cats with
  | .ok (_, vlh) => some (glinerLabels vlh)
  | .error _ => none

/-- The label index as the spec describes it: labels of categories that
have no children, plus labels of subcategories, in first-seen order with
later duplicates dropped.  This definition follows the spec's words, for
comparison with `glinerLabels`. -/
def claimedLabelIndex (cats : List RawCat) : List String :=
  distinctAux []
    (cats.flatMap fun c =>
      (if c.children = [] then [c.label?.getD ""] else []) ++
      c.children.map fun s => s.label?.getD "")

/-- The raw drivable labels in traversal order: the label of every
category (childless or not) followed by the labels of its
subcategories. -/
def rawDrivableLabels (cats : List RawCat) : List String :=
  cats.flatMap fun c =>
    c.label?.getD "" :: c.children.map fun s => s.label?.getD ""

/-- The labels the code actually drives GLiNER with: every category's
label plus the subcategory labels, in traversal order, with later
duplicates dropped. -/
def amendedLabelIndex (cats : List RawCat) : List String :=
  distinctAux [] (rawDrivableLabels cats)

/-! ## Backend post-processing loops

The model calls themselves (GLiNER, SciSpacy, text2term) are opaque
predictors; what is embedded is everything the script does with their
output: identifier resolution, filtering, and the annotation dict each
loop emits. -/

/-- An entity predicted by the GLiNER model.  The `keyword`/`inclusion`/
`exclusion` keys are read with `ent.get(k, False)`, hence `Option`. -/
structure GlinerEnt where
  text : String
  label : String
  score : ℚ
  keyword? : Option Bool
  inclusion? : Option Bool
  exclusion? : Option Bool
  deriving DecidableEq

/-- The result loop of `extract_annotation_gliner` (lines 96–118):
map the predicted label back to a vocabulary id (skipping entities whose
label resolves to nothing — `if not vid: continue`, which also drops a
falsy empty id), resolve the hierarchy, and build the output dict. -/
def glinerPost (label_to_id : List (String × String)) (vh vlh : VDict) :
    List GlinerEnt → List PyDict
  | [] => []
  | ent :: rest =>
      match dictGet label_to_id ent.label with
      | none => glinerPost label_to_id vh vlh rest
      | some vid =>
          if vid = "" then glinerPost label_to_id vh vlh rest
          else
            let _ids := dictGetD vh vid ("", "", "")
            let lbls := dictGetD vlh vid ("", "", "")
            [("text", JValue.jstr ent.text),
             ("vocabulary_id", JValue.jstr vid),
             ("category", JValue.jstr lbls.1),
             ("subcategory", JValue.jstr lbls.2.1),
             ("term", JValue.jstr lbls.2.2),
             ("score", JValue.jnum ent.score),
             ("keyword", JValue.jbool (ent.keyword?.getD false)),
             ("inclusion", JValue.jbool (ent.inclusion?.getD false)),
             ("exclusion", JValue.jbool (ent.exclusion?.getD false)),
             ("mapper", JValue.jstr "gliner")] ::
              glinerPost label_to_id vh vlh rest

/-- An entity found by the SciSpacy pipeline: its span text and the
ranked `(cui, score)` candidates of the MeSH linker. -/
structure MeshEnt where
  text : String
  kb_ents : List (String × ℚ)
  deriving DecidableEq

/-- The result loop of `extract_annotation_mesh` (lines 135–158): skip
entities with no linker candidate, take the top candidate, resolve its
CUI through `mesh_map` (`if not vocab_id: continue`), and build the
output dict — which also carries the backend-specific `mesh_id` key. -/
def meshPost (mm : List (String × String)) (vh vlh : VDict) :
    List MeshEnt → List PyDict
  | [] => []
  | ent :: rest =>
      match ent.kb_ents with
      | [] => meshPost mm vh vlh rest
      | (cui, score) :: _ =>
          match dictGet mm cui with
          | none => meshPost mm vh vlh rest
          | some vid =>
              if vid = "" then meshPost mm vh vlh rest
              else
                let _ids := dictGetD vh vid ("", "", "")
                let lbls := dictGetD vlh vid ("", "", "")
                [("text", JValue.jstr ent.text),
                 ("mesh_id", JValue.jstr cui),
                 ("vocabulary_id", JValue.jstr vid),
                 ("category", JValue.jstr lbls.1),
                 ("subcategory", JValue.jstr lbls.2.1),
                 ("term", JValue.jstr lbls.2.2),
                 ("score", JValue.jnum score),
                 ("keyword", JValue.jbool false),
                 ("inclusion", JValue.jbool false),
                 ("exclusion", JValue.jbool false),
                 ("mapper", JValue.jstr "mesh")] ::
                  meshPost mm vh vlh rest

/-- One row of the text2term mapping dataframe, restricted to the three
consumed columns; `row.get(col, default)` motivates the `Option`s. -/
structure T2tRow where
  mappedTermCurie : Option String
  sourceTerm : Option String
  mappingScore : Option ℚ
  deriving DecidableEq

/-- The result loop of `extract_annotation_t2t` (lines 196–217): resolve
the mapped CURIE through `meshid_to_vocab_id` with default `""`
(`if not vocab_id: continue`), then build the output dict. -/
def t2tPost (m2v : List (String × String)) (vlh : VDict) :
    List T2tRow → List PyDict
  | [] => []
  | row :: rest =>
      let mesh_id := row.mappedTermCurie.getD ""
      let vid := dictGetD m2v mesh_id ""
      if vid = "" then t2tPost m2v vlh rest
      else
        let lbls := dictGetD vlh vid ("", "", "")
        [("text", JValue.jstr (row.sourceTerm.getD "")),
         ("vocabulary_id", JValue.jstr vid),
         ("category", JValue.jstr lbls.1),
         ("subcategory", JValue.jstr lbls.2.1),
         ("term", JValue.jstr lbls.2.2),
         ("score", JValue.jnum (row.mappingScore.getD 0)),
         ("keyword", JValue.jbool false),
         ("inclusion", JValue.jbool false),
         ("exclusion", JValue.jbool false),
         ("mapper", JValue.jstr "t2t")] :: t2tPost m2v vlh rest

/-- The ten annotation fields of the response contract, in emission
order. -/
def specFields : List String :=
  ["text", "vocabulary_id", "category", "subcategory", "term",
   "score", "keyword", "inclusion", "exclusion", "mapper"]

/-- The eleven fields the MeSH backend actually emits. -/
def meshFields : List String :=
  ["text", "mesh_id", "vocabulary_id", "category", "subcategory", "term",
   "score", "keyword", "inclusion", "exclusion", "mapper"]

/-! ## The stdin/stdout envelope (`main`, lines 255–261) -/

/-- A parsed JSON payload. -/
inductive Json where
  | jnull : Json
  | jstr : String → Json
  | jnum : ℚ → Json
  | jbool : Bool → Json
  | jarr : List Json → Json
  | jobj : List (String × Json) → Json

/-- How `main` can abort a request. -/
inductive PyErr where
  /-- `json.load(sys.stdin)` raised: the payload is not parseable JSON. -/
  | parseError : PyErr
  /-- `payload.get` raised: the payload is valid JSON but not an object. -/
  | attributeError : PyErr
  deriving DecidableEq

/-- Annotation values embedded into the response JSON. -/
def jvalToJson : JValue → Json
  | .jstr s => .jstr s
  | .jnum q => .jnum q
  | .jbool b => .jbool b

/-- `json.dump({"result": result}, sys.stdout)`'s payload. -/
def encodeResults (res : List PyDict) : Json :=
  .jobj [("result", .jarr (res.map fun d =>
    .jobj (d.map fun kv => (kv.1, jvalToJson kv.2))))]

/-- `payload.get("text", "")`: the empty string when the key is absent,
an `AttributeError` when the payload is not a dict. -/
def payloadText : Json → Except PyErr Json
  | .jobj fields =>
      .ok (((fields.find? fun kv => decide (kv.1 = "text")).map Prod.snd).getD
        (.jstr ""))
  | _ => .error .attributeError

/-- `main`, with the annotation pipeline abstracted as `extract` (the
backends are opaque model calls): parse stdin, read the text with default
`""`, run the pipeline, emit `{"result": ...}`. -/
def mainModel (extract : Json → List PyDict × List String)
    (stdin : Except PyErr Json) : Except PyErr Json :=
  match stdin with
  | .error e => .error e
  | .ok payload =>
      match payloadText payload with
      | .error e => .error e
      | .ok text => .ok (encodeResults (extract text).1)

/-- Fold a list of key/value pairs into a dict, later pairs
overwriting. -/
def insertAll {α : Type} (d : List (String × α)) (l : List (String × α)) :
    List (String × α) :=
  l.foldl (fun d kv => dictInsert d kv.1 kv.2) d

/-- The `vocab_label_hierarchy` map of a raw tree, when loading
succeeds. -/
def labelMapOfTree (cats : List RawCat) : Option VDict :=
  match buildHierarchy cats with
  | .ok (_, vlh) => some vlh
  | .error _ => none

/-! ## Dictionary lemmas -/

theorem dictGet_insert {α : Type} (d : List (String × α)) (k : String) (v : α)
    (k0 : String) :
    dictGet (dictInsert d k v) k0 = if k = k0 then some v else dictGet d k0 := by
  induction d with
  | nil => rfl
  | cons p rest ih =>
    obtain ⟨a, b⟩ := p
    simp only [dictInsert]
    by_cases hak : a = k
    · subst hak
      simp only [if_pos rfl, dictGet]
      by_cases h0 : a = k0
      · subst h0; simp
      · simp [h0]
    · simp only [if_neg hak, dictGet]
      by_cases h0 : a = k0
      · subst h0
        have hk : ¬k = a := fun h => hak h.symm
        simp [hk]
      · simp [h0, ih]

theorem dictGet_eq_none {α : Type} (d : List (String × α)) (k : String) :
    dictGet d k = none ↔ k ∉ dictKeys d := by
  induction d with
  | nil => simp [dictGet, dictKeys]
  | cons p rest ih =>
    obtain ⟨a, b⟩ := p
    by_cases h : a = k
    · subst h; simp [dictGet, dictKeys]
    · have h2 : ¬k = a := fun e => h e.symm
      simp [dictGet, dictKeys, h, h2, ih]

theorem dictInsert_fresh {α : Type} (d : List (String × α)) (k : String) (v : α)
    (h : k ∉ dictKeys d) : dictInsert d k v = d ++ [(k, v)] := by
  induction d with
  | nil => rfl
  | cons p rest ih =>
    obtain ⟨a, b⟩ := p
    have h1 : ¬k = a ∧ k ∉ dictKeys rest := by
      simpa [dictKeys, not_or] using h
    have hak : ¬a = k := fun e => h1.1 e.symm
    simp [dictInsert, hak, ih h1.2]

theorem dictGet_of_mem {α : Type} (d : List (String × α)) (k : String) (v : α)
    (hnd : (dictKeys d).Nodup) (hm : (k, v) ∈ d) : dictGet d k = some v := by
  induction d with
  | nil => cases hm
  | cons p rest ih =>
    obtain ⟨a, b⟩ := p
    have hnd1 : a ∉ dictKeys rest ∧ (dictKeys rest).Nodup := by
      simpa [dictKeys] using hnd
    rcases List.mem_cons.mp hm with he | hm2
    · obtain ⟨h1, h2⟩ := Prod.mk.injEq .. ▸ he
      subst h1; subst h2
      simp [dictGet]
    · by_cases hak : a = k
      · subst hak
        exact absurd (List.mem_map_of_mem Prod.fst hm2) hnd1.1
      · simpa [dictGet, hak] using ih hnd1.2 hm2

/-! ## C7: identifier-mapping last-write-wins -/

theorem load_mesh_map_go (rows : List MapRow) (m : List (String × String))
    (extId : String) :
    dictGet (rows.foldl (fun m r => dictInsert m r.mesh_id r.vocabulary_id) m)
        extId
      = ((rows.reverse.find? fun r => decide (r.mesh_id = extId)).map
          MapRow.vocabulary_id).or (dictGet m extId) := by
  induction rows generalizing m with
  | nil => simp
  | cons r rs ih =>
    simp only [List.foldl_cons, List.reverse_cons, List.find?_append]
    rw [ih]
    cases hf : rs.reverse.find? fun r => decide (r.mesh_id = extId) with
    | some r0 => simp [Option.or]
    | none =>
        by_cases he : r.mesh_id = extId
        · simp [List.find?, he, dictGet_insert, Option.or]
        · simp [List.find?, he, dictGet_insert, Option.or]

/-- **C7.** Loading a mapping table fills the dict in row order with the
later row overwriting the earlier, so `resolve` returns the vocabulary id
of the *last* row bearing the external id — in particular, for a table
with two rows sharing an external id but with different vocabulary ids,
the later row's id.  `resolve` is a pure lookup returning `none` (absent)
for an unmapped external id, and is total (never fails). -/
theorem C7_mapping_last_write_wins (rows : List MapRow) (extId : String) :
    resolveMesh (load_mesh_map rows) extId
      = (rows.reverse.find? fun r => decide (r.mesh_id = extId)).map
          MapRow.vocabulary_id := by
  have h := load_mesh_map_go rows [] extId
  simpa [resolveMesh, load_mesh_map, dictGet] using h

/-! ## C1: first-wins deduplication -/

theorem dedupGo_filter_of_mem (l : List PyDict)
    (seen : List (Option JValue × Option JValue))
    (k : Option JValue × Option JValue) (hk : k ∈ seen) :
    (dedupGo seen l).filter (fun x => decide (annKey x = k)) = [] := by
  induction l generalizing seen with
  | nil => rfl
  | cons a rest ih =>
    simp only [dedupGo]
    by_cases h : annKey a ∈ seen
    · rw [if_pos h]; exact ih seen hk
    · rw [if_neg h]
      have hne : ¬annKey a = k := fun he => h (he ▸ hk)
      rw [List.filter_cons, if_neg (by simpa using hne)]
      exact ih (annKey a :: seen) (List.mem_cons_of_mem _ hk)

theorem dedupGo_filter_first (l : List PyDict)
    (seen : List (Option JValue × Option JValue))
    (k : Option JValue × Option JValue) (a : PyDict) (hk : k ∉ seen)
    (hfind : l.find? (fun x => decide (annKey x = k)) = some a) :
    (dedupGo seen l).filter (fun x => decide (annKey x = k)) = [a] := by
  induction l generalizing seen with
  | nil => simp at hfind
  | cons b rest ih =>
    by_cases hb : annKey b = k
    · have hba : b = a := by
        rw [List.find?_cons_of_pos _ (by simpa using hb)] at hfind
        exact Option.some.inj hfind
      subst hba
      simp only [dedupGo]
      rw [if_neg (fun hm => hk (hb ▸ hm))]
      rw [List.filter_cons, if_pos (by simpa using hb)]
      rw [dedupGo_filter_of_mem rest (annKey b :: seen) k
        (by rw [hb]; exact List.mem_cons_self _ _)]
    · have hfind2 : rest.find? (fun x => decide (annKey x = k)) = some a := by
        rwa [List.find?_cons_of_neg _ (by simpa using hb)] at hfind
      simp only [dedupGo]
      by_cases hbs : annKey b ∈ seen
      · rw [if_pos hbs]; exact ih seen hk hfind2
      · rw [if_neg hbs]
        rw [List.filter_cons, if_neg (by simpa using hb)]
        refine ih (annKey b :: seen) ?_ hfind2
        intro hm
        rcases List.mem_cons.mp hm with he | hm2
        · exact hb he.symm
        · exact hk hm2

/-- **C1.** For every sequence of per-backend result lists (each
annotation dict carrying the `text` and `vocabulary_id` keys, as every
backend-produced dict does), the merged output keeps for a key exactly
the first annotation bearing it — scanning backend lists in declared
order and within each list in list order: the survivor is that first
occurrence itself, fields unchanged, and every later annotation with the
same key is absent. -/
theorem C1_dedup_first_wins (ls : List (List PyDict))
    (k : Option JValue × Option JValue) (a : PyDict)
    (_hfields : ∀ x ∈ ls.flatten, hasDedupFields x = true)
    (hfind : ls.flatten.find? (fun x => decide (annKey x = k)) = some a) :
    a ∈ ls.flatten ∧
      (mergeBackends ls).filter (fun x => decide (annKey x = k)) = [a] :=
  ⟨List.mem_of_find?_eq_some hfind,
   dedupGo_filter_first ls.flatten [] k a (by simp) hfind⟩

/-- Witness for C1: two backends both report `("tumor", "V1")`; only the
first backend's annotation survives, with its `mapper` field intact. -/
theorem C1_witness :
    [("text", JValue.jstr "tumor"), ("vocabulary_id", JValue.jstr "V1"),
        ("mapper", JValue.jstr "gliner")]
      ∈ ([[[("text", JValue.jstr "tumor"), ("vocabulary_id", JValue.jstr "V1"),
            ("mapper", JValue.jstr "gliner")]],
          [[("text", JValue.jstr "tumor"), ("vocabulary_id", JValue.jstr "V1"),
            ("mapper", JValue.jstr "mesh")],
           [("text", JValue.jstr "tumor"), ("vocabulary_id", JValue.jstr "V2"),
            ("mapper", JValue.jstr "mesh")]]] : List (List PyDict)).flatten ∧
      (mergeBackends
          [[[("text", JValue.jstr "tumor"), ("vocabulary_id", JValue.jstr "V1"),
             ("mapper", JValue.jstr "gliner")]],
           [[("text", JValue.jstr "tumor"), ("vocabulary_id", JValue.jstr "V1"),
             ("mapper", JValue.jstr "mesh")],
            [("text", JValue.jstr "tumor"), ("vocabulary_id", JValue.jstr "V2"),
             ("mapper", JValue.jstr "mesh")]]]).filter
          (fun x =>
            decide (annKey x
              = (some (JValue.jstr "tumor"), some (JValue.jstr "V1"))))
        = [[("text", JValue.jstr "tumor"), ("vocabulary_id", JValue.jstr "V1"),
            ("mapper", JValue.jstr "gliner")]] :=
  C1_dedup_first_wins _ _ _ (by decide) (by decide)

/-! ## C2: failure isolation -/

/-- **C2.** Once the three backends reach a terminal state — any subset
of them having raised an exception — the aggregation call returns
normally (`some …`): each failing backend contributes nothing to the raw
list and exactly one diagnostic line, the diagnostics appearing in
declared order, and the result equals the merge of the successful
backends' result lists in declared order.  One backend's failure does not
change how the sibling outcomes are incorporated. -/
theorem C2_failure_isolation (eg em et : Outcome) :
    extract_annotationsPool (some eg) (some em) (some et)
      = some
          (mergeBackends
            (successLists [("GLiNER", eg), ("MeSH", em), ("T2T", et)]),
           failureLines [("GLiNER", eg), ("MeSH", em), ("T2T", et)]) := by
  cases eg <;> cases em <;> cases et <;>
    simp [extract_annotationsPool, extract_annotations_model, collectOne,
      successLists, failureLines, mergeBackends, dedupAnns, List.filterMap_cons,
      List.append_assoc]

/-! ## C3: declared-order join, independent of completion order -/

theorem lookupFuture_completionLog (order : List (Fin 3))
    (outs : Fin 3 → Outcome) (i : Fin 3) (h : i ∈ order) :
    lookupFuture (completionLog order outs) i = some (outs i) := by
  induction order with
  | nil => cases h
  | cons j rest ih =>
    simp only [completionLog, List.map_cons, lookupFuture]
    by_cases hj : j = i
    · subst hj
      rw [List.find?_cons_of_pos _ (by simp)]
      rfl
    · rw [List.find?_cons_of_neg _ (by simpa using hj)]
      have hi : i ∈ rest := by
        rcases List.mem_cons.mp h with h1 | h1
        · exact absurd h1.symm hj
        · exact h1
      simpa only [lookupFuture, completionLog] using ih hi

/-- **C3.** For every fixed assignment of backend outcomes and any two
completion schedules in which every backend terminates, the aggregation
reads the futures in backend-declared order (GLiNER, MeSH, T2T) — not in
completion order — so both runs produce the same result, namely the merge
of the outcomes in declared order. -/
theorem C3_declared_order_determinism (order1 order2 : List (Fin 3))
    (outs : Fin 3 → Outcome) (h1 : ∀ i, i ∈ order1) (h2 : ∀ i, i ∈ order2) :
    extract_annotations_sched order1 outs
        = some (extract_annotations_model (outs 0) (outs 1) (outs 2))
      ∧ extract_annotations_sched order1 outs
        = extract_annotations_sched order2 outs := by
  have key : ∀ o : List (Fin 3), (∀ i : Fin 3, i ∈ o) →
      extract_annotations_sched o outs
        = some (extract_annotations_model (outs 0) (outs 1) (outs 2)) := by
    intro o ho
    simp only [extract_annotations_sched]
    rw [lookupFuture_completionLog o outs 0 (ho 0),
      lookupFuture_completionLog o outs 1 (ho 1),
      lookupFuture_completionLog o outs 2 (ho 2)]
  exact ⟨key order1 h1, (key order1 h1).trans (key order2 h2).symm⟩

/-- Witness for C3: two different completion schedules of the same three
terminal outcomes produce the same aggregate result. -/
theorem C3_witness :
    extract_annotations_sched [2, 0, 1] (fun _ => Except.ok [])
        = some (extract_annotations_model (Except.ok []) (Except.ok [])
            (Except.ok []))
      ∧ extract_annotations_sched [2, 0, 1] (fun _ => Except.ok [])
        = extract_annotations_sched [1, 2, 0] (fun _ => Except.ok []) :=
  C3_declared_order_determinism [2, 0, 1] [1, 2, 0] (fun _ => Except.ok [])
    (by decide) (by decide)

/-! ## C4: there is no overall timeout -/

/-- **C4 counterexample.** With the MeSH backend never reaching a
terminal state, the aggregation call never returns (`none`): no backend
is ever treated as `TimedOut`, and the aggregator does not proceed to
merge the terminated siblings' results as the claim requires. -/
theorem C4_counterexample :
    extract_annotationsPool (some (Except.ok [])) none (some (Except.ok []))
        = none
      ∧ (none : Option (List PyDict × List String))
        ≠ some (extract_annotations_model (Except.ok [])
            (Except.error "TimedOut") (Except.ok [])) :=
  ⟨rfl, by simp⟩

/-- **C4 amended.** The aggregate operation enforces no timeout at all:
`future.result()` is called with no timeout argument, so the call returns
exactly when all three backends reach a terminal state, and a backend
that never terminates blocks the aggregation indefinitely. -/
theorem C4_no_overall_timeout (og om ot : Option Outcome) :
    (extract_annotationsPool og om ot).isSome
      = (og.isSome && om.isSome && ot.isSome) := by
  cases og <;> cases om <;> cases ot <;> rfl

/-! ## C8: when hierarchy loading fails -/

theorem buildTerms_ok (cid clbl sid slbl : String) (ts : List RawTerm)
    (acc : HierAcc) :
    isOkB (buildTerms cid clbl sid slbl ts acc) = ts.all termOK := by
  induction ts generalizing acc with
  | nil => rfl
  | cons t ts ih =>
    cases hid : t.id? with
    | none => simp [buildTerms, getKey, hid, termOK, isOkB]
    | some tid =>
      cases hlbl : t.label? with
      | none => simp [buildTerms, getKey, hid, hlbl, termOK, isOkB]
      | some tlbl => simp [buildTerms, getKey, hid, hlbl, termOK, ih]

theorem buildSubs_ok (cid clbl : String) (ss : List RawSub) (acc : HierAcc) :
    isOkB (buildSubs cid clbl ss acc) = ss.all subOK := by
  induction ss generalizing acc with
  | nil => rfl
  | cons s ss ih =>
    cases hid : s.id? with
    | none => simp [buildSubs, getKey, hid, subOK, isOkB]
    | some sid =>
      cases hlbl : s.label? with
      | none => simp [buildSubs, getKey, hid, hlbl, subOK, isOkB]
      | some slbl =>
        have ht := buildTerms_ok cid clbl sid slbl s.children
          (dictInsert acc.1 sid (cid, sid, ""),
           dictInsert acc.2 sid (clbl, slbl, ""))
        cases hbt : buildTerms cid clbl sid slbl s.children
            (dictInsert acc.1 sid (cid, sid, ""),
             dictInsert acc.2 sid (clbl, slbl, "")) with
        | error e =>
          rw [hbt] at ht
          have hterm : s.children.all termOK = false := by
            simpa [isOkB] using ht.symm
          simp [buildSubs, getKey, hid, hlbl, hbt, subOK, isOkB, hterm]
        | ok acc1 =>
          rw [hbt] at ht
          have hterm : s.children.all termOK = true := by
            simpa [isOkB] using ht.symm
          simp [buildSubs, getKey, hid, hlbl, hbt, subOK, hterm, ih]

theorem buildCats_ok (cats : List RawCat) (acc : HierAcc) :
    isOkB (buildCats cats acc) = cats.all catOK := by
  induction cats generalizing acc with
  | nil => rfl
  | cons c cs ih =>
    cases hid : c.id? with
    | none => simp [buildCats, getKey, hid, catOK, isOkB]
    | some cid =>
      cases hlbl : c.label? with
      | none => simp [buildCats, getKey, hid, hlbl, catOK, isOkB]
      | some clbl =>
        have hs := buildSubs_ok cid clbl c.children
          (dictInsert acc.1 cid (cid, "", ""),
           dictInsert acc.2 cid (clbl, "", ""))
        cases hbs : buildSubs cid clbl c.children
            (dictInsert acc.1 cid (cid, "", ""),
             dictInsert acc.2 cid (clbl, "", "")) with
        | error e =>
          rw [hbs] at hs
          have hsub : c.children.all subOK = false := by
            simpa [isOkB] using hs.symm
          simp [buildCats, getKey, hid, hlbl, hbs, catOK, isOkB, hsub]
        | ok acc1 =>
          rw [hbs] at hs
          have hsub : c.children.all subOK = true := by
            simpa [isOkB] using hs.symm
          simp [buildCats, getKey, hid, hlbl, hbs, catOK, hsub, ih]

/-- **C8 amended.** Loading the hierarchy fails (with a `KeyError`)
exactly when some node of the raw tree lacks an `id` or a `label`; on
failure no maps are produced (the error carries nothing).  A node whose
id collides with an id already in the tree is *not* an error: its entries
silently overwrite the earlier ones, so ids are not guaranteed unique in
the built maps. -/
theorem C8_build_ok_iff_complete (cats : List RawCat) :
    isOkB (buildHierarchy cats) = treeOK cats :=
  buildCats_ok cats ([], [])

/-- **C8 counterexample.** A tree with two categories sharing the id
`C1` loads successfully — no `LoadError` on an id collision, with the
later label `B` overwriting the earlier `A` in the label map — refuting
the claim that a collision makes the build fail. -/
theorem C8_counterexample :
    isOkB (buildHierarchy
        [⟨some "C1", some "A", []⟩, ⟨some "C1", some "B", []⟩]) = true
      ∧ ¬(hierIds [⟨some "C1", some "A", []⟩, ⟨some "C1", some "B", []⟩]).Nodup
      ∧ (labelMapOfTree
          [⟨some "C1", some "A", []⟩, ⟨some "C1", some "B", []⟩]).map
          (fun vlh => lookupLabels vlh "C1") = some ("B", "", "") := by
  decide

/-! ## C5: the built maps as flat association lists -/

theorem insertAll_append {α : Type} (d : List (String × α))
    (l1 l2 : List (String × α)) :
    insertAll d (l1 ++ l2) = insertAll (insertAll d l1) l2 := by
  simp [insertAll, List.foldl_append]

theorem insertAll_fresh {α : Type} (d l : List (String × α))
    (hnd : (dictKeys d ++ l.map Prod.fst).Nodup) : insertAll d l = d ++ l := by
  induction l generalizing d with
  | nil => simp [insertAll]
  | cons e rest ih =>
    obtain ⟨k, v⟩ := e
    have hdisj := (List.nodup_append.mp hnd).2.2
    have hfresh : k ∉ dictKeys d := fun hm =>
      hdisj hm (List.mem_cons_self _ _)
    have hstep : insertAll d ((k, v) :: rest)
        = insertAll (d ++ [(k, v)]) rest := by
      simp [insertAll, dictInsert_fresh d k v hfresh]
    have hnd2 : (dictKeys (d ++ [(k, v)]) ++ rest.map Prod.fst).Nodup := by
      simpa [dictKeys] using hnd
    rw [hstep, ih (d ++ [(k, v)]) hnd2]
    simp

theorem flatTermsV_cons (cid sid : String) (t : RawTerm) (ts : List RawTerm) :
    flatTermsV cid sid (t :: ts)
      = (t.id?.getD "", (cid, sid, t.id?.getD "")) :: flatTermsV cid sid ts :=
  rfl

theorem flatTermsL_cons (clbl slbl : String) (t : RawTerm)
    (ts : List RawTerm) :
    flatTermsL clbl slbl (t :: ts)
      = (t.id?.getD "", (clbl, slbl, t.label?.getD ""))
          :: flatTermsL clbl slbl ts :=
  rfl

theorem flatSubsV_cons (cid : String) (s : RawSub) (ss : List RawSub) :
    flatSubsV cid (s :: ss)
      = (s.id?.getD "", (cid, s.id?.getD "", ""))
          :: (flatTermsV cid (s.id?.getD "") s.children ++ flatSubsV cid ss) := by
  simp [flatSubsV]

theorem flatSubsL_cons (clbl : String) (s : RawSub) (ss : List RawSub) :
    flatSubsL clbl (s :: ss)
      = (s.id?.getD "", (clbl, s.label?.getD "", ""))
          :: (flatTermsL clbl (s.label?.getD "") s.children
              ++ flatSubsL clbl ss) := by
  simp [flatSubsL]

theorem flatV_cons (c : RawCat) (cs : List RawCat) :
    flatV (c :: cs)
      = (c.id?.getD "", (c.id?.getD "", "", ""))
          :: (flatSubsV (c.id?.getD "") c.children ++ flatV cs) := by
  simp [flatV]

theorem flatL_cons (c : RawCat) (cs : List RawCat) :
    flatL (c :: cs)
      = (c.id?.getD "", (c.label?.getD "", "", ""))
          :: (flatSubsL (c.label?.getD "") c.children ++ flatL cs) := by
  simp [flatL]

theorem buildTerms_insertAll (cid clbl sid slbl : String) (ts : List RawTerm)
    (accV accL : VDict) (hts : ts.all termOK = true) :
    buildTerms cid clbl sid slbl ts (accV, accL)
      = .ok (insertAll accV (flatTermsV cid sid ts),
             insertAll accL (flatTermsL clbl slbl ts)) := by
  induction ts generalizing accV accL with
  | nil => simp [buildTerms, flatTermsV, flatTermsL, insertAll]
  | cons t ts ih =>
    rw [List.all_cons, Bool.and_eq_true] at hts
    have h1 := hts.1
    rw [termOK, Bool.and_eq_true] at h1
    obtain ⟨tid, hid⟩ := Option.isSome_iff_exists.mp h1.1
    obtain ⟨tlbl, hlbl⟩ := Option.isSome_iff_exists.mp h1.2
    simp only [buildTerms, getKey, hid, hlbl]
    rw [ih _ _ hts.2, flatTermsV_cons, flatTermsL_cons]
    simp [insertAll, hid, hlbl]

theorem buildSubs_insertAll (cid clbl : String) (ss : List RawSub)
    (accV accL : VDict) (hss : ss.all subOK = true) :
    buildSubs cid clbl ss (accV, accL)
      = .ok (insertAll accV (flatSubsV cid ss),
             insertAll accL (flatSubsL clbl ss)) := by
  induction ss generalizing accV accL with
  | nil => simp [buildSubs, flatSubsV, flatSubsL, insertAll]
  | cons s ss ih =>
    rw [List.all_cons, Bool.and_eq_true] at hss
    have h1 := hss.1
    rw [subOK, Bool.and_eq_true, Bool.and_eq_true] at h1
    obtain ⟨⟨hsid, hslbl⟩, hterms⟩ := h1
    obtain ⟨sid, hid⟩ := Option.isSome_iff_exists.mp hsid
    obtain ⟨slbl, hlbl⟩ := Option.isSome_iff_exists.mp hslbl
    simp only [buildSubs, getKey, hid, hlbl,
      buildTerms_insertAll cid clbl sid slbl s.children
        (dictInsert accV sid (cid, sid, ""))
        (dictInsert accL sid (clbl, slbl, "")) hterms]
    rw [ih _ _ hss.2, flatSubsV_cons, flatSubsL_cons]
    simp [insertAll, insertAll_append, hid, hlbl, List.foldl_append]

theorem buildCats_insertAll (cats : List RawCat) (accV accL : VDict)
    (hcats : cats.all catOK = true) :
    buildCats cats (accV, accL)
      = .ok (insertAll accV (flatV cats), insertAll accL (flatL cats)) := by
  induction cats generalizing accV accL with
  | nil => simp [buildCats, flatV, flatL, insertAll]
  | cons c cs ih =>
    rw [List.all_cons, Bool.and_eq_true] at hcats
    have h1 := hcats.1
    rw [catOK, Bool.and_eq_true, Bool.and_eq_true] at h1
    obtain ⟨⟨hcid, hclbl⟩, hsubs⟩ := h1
    obtain ⟨cid, hid⟩ := Option.isSome_iff_exists.mp hcid
    obtain ⟨clbl, hlbl⟩ := Option.isSome_iff_exists.mp hclbl
    simp only [buildCats, getKey, hid, hlbl,
      buildSubs_insertAll cid clbl c.children
        (dictInsert accV cid (cid, "", ""))
        (dictInsert accL cid (clbl, "", "")) hsubs]
    rw [ih _ _ hcats.2, flatV_cons, flatL_cons]
    simp [insertAll, insertAll_append, hid, hlbl, List.foldl_append]

theorem flatTermsV_keys (cid sid : String) (ts : List RawTerm) :
    (flatTermsV cid sid ts).map Prod.fst
      = ts.map (fun t => t.id?.getD "") := by
  simp only [flatTermsV, List.map_map]
  rfl

theorem flatTermsL_keys (clbl slbl : String) (ts : List RawTerm) :
    (flatTermsL clbl slbl ts).map Prod.fst
      = ts.map (fun t => t.id?.getD "") := by
  simp only [flatTermsL, List.map_map]
  rfl

theorem flatSubsV_keys (cid clbl : String) (ss : List RawSub) :
    (flatSubsV cid ss).map Prod.fst = (flatSubsL clbl ss).map Prod.fst := by
  induction ss with
  | nil => rfl
  | cons s ss ih =>
    rw [flatSubsV_cons, flatSubsL_cons]
    simp [flatTermsV_keys, flatTermsL_keys, ih]

theorem flatV_keys (cats : List RawCat) :
    (flatV cats).map Prod.fst = hierIds cats := by
  rw [hierIds]
  induction cats with
  | nil => rfl
  | cons c cs ih =>
    rw [flatV_cons, flatL_cons]
    simp only [List.map_cons, List.map_append, ih]
    rw [flatSubsV_keys (c.id?.getD "") (c.label?.getD "") c.children]

/-- When every node is complete and the ids are globally unique, the two
maps the loader builds are exactly the flattened traversal entries. -/
theorem buildHierarchy_flat (cats : List RawCat) (hok : treeOK cats = true)
    (hnd : (hierIds cats).Nodup) :
    buildHierarchy cats = .ok (flatV cats, flatL cats) := by
  rw [buildHierarchy, buildCats_insertAll cats [] [] hok]
  rw [insertAll_fresh [] (flatV cats) (by simpa [dictKeys, flatV_keys] using hnd)]
  rw [insertAll_fresh [] (flatL cats) (by simpa [dictKeys, hierIds] using hnd)]
  simp

/-- When loading succeeds on globally unique ids, the label map is
exactly the flattened traversal of the tree. -/
theorem build_label_map (cats : List RawCat) (vh vlh : VDict)
    (hok : buildHierarchy cats = .ok (vh, vlh))
    (hnd : (hierIds cats).Nodup) : vlh = flatL cats := by
  have htree : treeOK cats = true := by
    have h : isOkB (buildHierarchy cats) = treeOK cats :=
      buildCats_ok cats ([], [])
    rw [hok] at h
    simpa [isOkB] using h.symm
  have hflat := buildHierarchy_flat cats htree hnd
  rw [hok] at hflat
  exact congrArg Prod.snd (Except.ok.inj hflat)

/-- **C5.** For a hierarchy with globally unique node ids (the spec's
tree invariant), label lookup on the built map is total and level-faithful:
an unknown id yields `("","","")`, a category id yields
`(label, "", "")`, a subcategory id yields `(catLabel, subLabel, "")`,
and a term id yields all three labels. -/
theorem C5_lookup_total (cats : List RawCat) (vh vlh : VDict)
    (hok : buildHierarchy cats = .ok (vh, vlh))
    (hnd : (hierIds cats).Nodup) :
    (∀ i, i ∉ hierIds cats → lookupLabels vlh i = ("", "", ""))
      ∧ (∀ c ∈ cats, ∀ ci cl, c.id? = some ci → c.label? = some cl →
          lookupLabels vlh ci = (cl, "", ""))
      ∧ (∀ c ∈ cats, ∀ s ∈ c.children, ∀ si sl cl,
          s.id? = some si → s.label? = some sl → c.label? = some cl →
          lookupLabels vlh si = (cl, sl, ""))
      ∧ (∀ c ∈ cats, ∀ s ∈ c.children, ∀ t ∈ s.children, ∀ ti tl sl cl,
          t.id? = some ti → t.label? = some tl → s.label? = some sl →
          c.label? = some cl → lookupLabels vlh ti = (cl, sl, tl)) := by
  have hv : vlh = flatL cats := build_label_map cats vh vlh hok hnd
  subst hv
  refine ⟨?_, ?_, ?_, ?_⟩
  · intro i hi
    rw [lookupLabels, dictGetD, (dictGet_eq_none (flatL cats) i).mpr hi]
    rfl
  · intro c hc ci cl hci hcl
    have hm : (ci, (cl, "", "")) ∈ flatL cats := by
      rw [flatL]
      refine List.mem_flatMap.mpr ⟨c, hc, ?_⟩
      simp [hci, hcl]
    rw [lookupLabels, dictGetD, dictGet_of_mem _ _ _ hnd hm]
    rfl
  · intro c hc s hs si sl cl hsi hsl hcl
    have hm : (si, (cl, sl, "")) ∈ flatL cats := by
      rw [flatL]
      refine List.mem_flatMap.mpr ⟨c, hc, List.mem_cons_of_mem _ ?_⟩
      rw [flatSubsL]
      refine List.mem_flatMap.mpr ⟨s, hs, ?_⟩
      simp [hsi, hsl, hcl]
    rw [lookupLabels, dictGetD, dictGet_of_mem _ _ _ hnd hm]
    rfl
  · intro c hc s hs t ht ti tl sl cl hti htl hsl hcl
    have hm : (ti, (cl, sl, tl)) ∈ flatL cats := by
      rw [flatL]
      refine List.mem_flatMap.mpr ⟨c, hc, List.mem_cons_of_mem _ ?_⟩
      rw [flatSubsL]
      refine List.mem_flatMap.mpr ⟨s, hs, List.mem_cons_of_mem _ ?_⟩
      rw [flatTermsL]
      refine List.mem_map.mpr ⟨t, ht, ?_⟩
      simp [hti, htl, hsl, hcl]
    rw [lookupLabels, dictGetD, dictGet_of_mem _ _ _ hnd hm]
    rfl

/-- Witness for C5: on the spec's own example hierarchy, a term-level
lookup returns all three labels and an unknown id returns the empty
triple. -/
theorem C5_witness :
    lookupLabels
        [("C1", ("Imaging", "", "")), ("C11", ("Imaging", "MRI", "")),
         ("C111", ("Imaging", "MRI", "T1w"))] "C111"
        = ("Imaging", "MRI", "T1w")
      ∧ lookupLabels
        [("C1", ("Imaging", "", "")), ("C11", ("Imaging", "MRI", "")),
         ("C111", ("Imaging", "MRI", "T1w"))] "unknown" = ("", "", "") := by
  have h := C5_lookup_total
    [⟨some "C1", some "Imaging",
      [⟨some "C11", some "MRI", [⟨some "C111", some "T1w"⟩]⟩]⟩]
    [("C1", ("C1", "", "")), ("C11", ("C1", "C11", "")),
     ("C111", ("C1", "C11", "C111"))]
    [("C1", ("Imaging", "", "")), ("C11", ("Imaging", "MRI", "")),
     ("C111", ("Imaging", "MRI", "T1w"))]
    rfl (by decide)
  refine ⟨?_, h.1 "unknown" (by decide)⟩
  exact h.2.2.2
    ⟨some "C1", some "Imaging",
      [⟨some "C11", some "MRI", [⟨some "C111", some "T1w"⟩]⟩]⟩ (by decide)
    ⟨some "C11", some "MRI", [⟨some "C111", some "T1w"⟩]⟩ (by decide)
    ⟨some "C111", some "T1w"⟩ (by decide)
    "C111" "T1w" "MRI" "Imaging" rfl rfl rfl rfl

/-! ## C6: the label index driven into GLiNER -/

theorem glinerScanAux_append (ls : List String) (m : List (String × String))
    (l1 l2 : VDict) :
    glinerScanAux ls m (l1 ++ l2)
      = glinerScanAux (glinerScanAux ls m l1).1 (glinerScanAux ls m l1).2
          l2 := by
  induction l1 generalizing ls m with
  | nil => rfl
  | cons e rest ih =>
    obtain ⟨vid, c, s, t⟩ := e
    simp only [List.cons_append, glinerScanAux]
    by_cases h1 : s = "" ∧ t = ""
    · rw [if_pos h1, if_pos h1]; exact ih _ _
    · rw [if_neg h1, if_neg h1]
      by_cases h2 : ¬s = "" ∧ t = ""
      · rw [if_pos h2, if_pos h2]; exact ih _ _
      · rw [if_neg h2, if_neg h2]; exact ih _ _

theorem glinerScanAux_terms (clbl slbl : String) (ts : List RawTerm)
    (hsl : ¬slbl = "")
    (hts : ∀ t ∈ ts, ¬t.label?.getD "" = "")
    (ls : List String) (m : List (String × String)) :
    glinerScanAux ls m (flatTermsL clbl slbl ts) = (ls, m) := by
  induction ts generalizing ls m with
  | nil => rfl
  | cons t ts ih =>
    rw [flatTermsL_cons]
    simp only [glinerScanAux]
    have h3 : ¬t.label?.getD "" = "" := hts t (List.mem_cons_self _ _)
    rw [if_neg (fun h => hsl h.1), if_neg (fun h => h3 h.2)]
    exact ih (fun x hx => hts x (List.mem_cons_of_mem _ hx)) ls m

theorem glinerScanAux_subs (clbl : String) (ss : List RawSub)
    (hss : ∀ s ∈ ss, ¬s.label?.getD "" = ""
      ∧ ∀ t ∈ s.children, ¬t.label?.getD "" = "")
    (ls : List String) (m : List (String × String)) :
    (glinerScanAux ls m (flatSubsL clbl ss)).1
      = ls ++ ss.map fun s => s.label?.getD "" := by
  induction ss generalizing ls m with
  | nil => simp [flatSubsL, glinerScanAux]
  | cons s ss ih =>
    rw [flatSubsL_cons]
    simp only [glinerScanAux]
    have h1 := hss s (List.mem_cons_self _ _)
    rw [if_neg (fun h => h1.1 h.1), if_pos ⟨h1.1, trivial⟩]
    rw [glinerScanAux_append]
    rw [glinerScanAux_terms clbl (s.label?.getD "") s.children h1.1 h1.2]
    rw [ih (fun x hx => hss x (List.mem_cons_of_mem _ hx))]
    simp

theorem glinerScanAux_cats (cats : List RawCat)
    (hcats : ∀ c ∈ cats, ∀ s ∈ c.children, ¬s.label?.getD "" = ""
      ∧ ∀ t ∈ s.children, ¬t.label?.getD "" = "")
    (ls : List String) (m : List (String × String)) :
    (glinerScanAux ls m (flatL cats)).1 = ls ++ rawDrivableLabels cats := by
  induction cats generalizing ls m with
  | nil => simp [flatL, glinerScanAux, rawDrivableLabels]
  | cons c cs ih =>
    rw [flatL_cons]
    simp only [glinerScanAux]
    rw [if_pos ⟨trivial, trivial⟩]
    rw [glinerScanAux_append]
    rw [ih (fun x hx => hcats x (List.mem_cons_of_mem _ hx))]
    rw [glinerScanAux_subs (c.label?.getD "") c.children
      (hcats c (List.mem_cons_self _ _))]
    simp [rawDrivableLabels]

theorem subTermLabelsNonempty_spec (cats : List RawCat)
    (h : subTermLabelsNonempty cats = true) :
    ∀ c ∈ cats, ∀ s ∈ c.children, ¬s.label?.getD "" = ""
      ∧ ∀ t ∈ s.children, ¬t.label?.getD "" = "" := by
  intro c hc s hs
  rw [subTermLabelsNonempty, List.all_eq_true] at h
  have h1 := h c hc
  rw [List.all_eq_true] at h1
  have h2 := h1 s hs
  rw [Bool.and_eq_true] at h2
  refine ⟨by simpa using h2.1, ?_⟩
  intro t ht
  simpa using (List.all_eq_true.mp h2.2) t ht

/-- **C6 amended.** For a loaded hierarchy with unique ids and nonempty
subcategory/term labels, the label index handed to the GLiNER model
consists of the labels of *all* categories — childless or not — plus the
labels of the subcategories, in first-seen traversal order with later
duplicates dropped.  (Term labels are excluded.) -/
theorem C6_amended (cats : List RawCat) (vh vlh : VDict)
    (hok : buildHierarchy cats = .ok (vh, vlh))
    (hnd : (hierIds cats).Nodup)
    (hlbl : subTermLabelsNonempty cats = true) :
    glinerLabels vlh = amendedLabelIndex cats := by
  have hv : vlh = flatL cats := build_label_map cats vh vlh hok hnd
  subst hv
  rw [glinerLabels, glinerScan, amendedLabelIndex]
  rw [glinerScanAux_cats cats (subTermLabelsNonempty_spec cats hlbl) [] []]
  simp

/-- **C6 counterexample.** For a hierarchy with one category `Imaging`
that *has* a child subcategory `MRI`, the code's label index is
`["Imaging", "MRI"]` — the parent category's label is included — while
the claimed index (childless categories plus subcategories) is
`["MRI"]`. -/
theorem C6_counterexample :
    glinerLabelsOfTree
        [⟨some "C1", some "Imaging", [⟨some "C11", some "MRI", []⟩]⟩]
        = some ["Imaging", "MRI"]
      ∧ claimedLabelIndex
        [⟨some "C1", some "Imaging", [⟨some "C11", some "MRI", []⟩]⟩]
        = ["MRI"]
      ∧ (["Imaging", "MRI"] : List String) ≠ ["MRI"] := by
  decide

/-- Witness for C6 (amended): on a concrete loaded hierarchy the GLiNER
label index equals the amended index. -/
theorem C6_witness :
    glinerLabels [("C1", ("Imaging", "", "")), ("C11", ("Imaging", "MRI", ""))]
      = amendedLabelIndex
          [⟨some "C1", some "Imaging", [⟨some "C11", some "MRI", []⟩]⟩] :=
  C6_amended [⟨some "C1", some "Imaging", [⟨some "C11", some "MRI", []⟩]⟩]
    [("C1", ("C1", "", "")), ("C11", ("C1", "C11", ""))]
    [("C1", ("Imaging", "", "")), ("C11", ("Imaging", "MRI", ""))]
    rfl (by decide) (by decide)

/-! ## C9: the field shape of emitted annotations -/

theorem glinerPost_keys (lt : List (String × String)) (vh vlh : VDict)
    (ents : List GlinerEnt) :
    ∀ a ∈ glinerPost lt vh vlh ents, dictKeys a = specFields := by
  induction ents with
  | nil => intro a ha; simp [glinerPost] at ha
  | cons e rest ih =>
    intro a ha
    cases hg : dictGet lt e.label with
    | none =>
      simp only [glinerPost, hg] at ha
      exact ih a ha
    | some vid =>
      simp only [glinerPost, hg] at ha
      by_cases hv : vid = ""
      · rw [if_pos hv] at ha
        exact ih a ha
      · rw [if_neg hv] at ha
        rcases List.mem_cons.mp ha with he | hm
        · subst he; rfl
        · exact ih a hm

theorem meshPost_keys (mm : List (String × String)) (vh vlh : VDict)
    (ents : List MeshEnt) :
    ∀ a ∈ meshPost mm vh vlh ents, dictKeys a = meshFields := by
  induction ents with
  | nil => intro a ha; simp [meshPost] at ha
  | cons e rest ih =>
    intro a ha
    cases hk : e.kb_ents with
    | nil =>
      simp only [meshPost, hk] at ha
      exact ih a ha
    | cons top others =>
      obtain ⟨cui, score⟩ := top
      cases hg : dictGet mm cui with
      | none =>
        simp only [meshPost, hk, hg] at ha
        exact ih a ha
      | some vid =>
        simp only [meshPost, hk, hg] at ha
        by_cases hv : vid = ""
        · rw [if_pos hv] at ha
          exact ih a ha
        · rw [if_neg hv] at ha
          rcases List.mem_cons.mp ha with he | hm
          · subst he; rfl
          · exact ih a hm

theorem t2tPost_keys (m2v : List (String × String)) (vlh : VDict)
    (rows : List T2tRow) :
    ∀ a ∈ t2tPost m2v vlh rows, dictKeys a = specFields := by
  induction rows with
  | nil => intro a ha; simp [t2tPost] at ha
  | cons row rest ih =>
    intro a ha
    simp only [t2tPost] at ha
    by_cases hv : dictGetD m2v (row.mappedTermCurie.getD "") "" = ""
    · rw [if_pos hv] at ha
      exact ih a ha
    · rw [if_neg hv] at ha
      rcases List.mem_cons.mp ha with he | hm
      · subst he; rfl
      · exact ih a hm

/-- **C9 amended.** Every annotation dict the GLiNER or t2t loop emits
carries exactly the ten response fields `text, vocabulary_id, category,
subcategory, term, score, keyword, inclusion, exclusion, mapper`, in
that order, each bound to a non-null value (the value type has no null);
every annotation the MeSH loop emits carries those ten fields *plus* a
backend-specific `mesh_id` field.  Unresolved hierarchy levels are bound
to the empty string and absent flags/scores to `false`/`0` by the
defaulted lookups in the loop. -/
theorem C9_amended :
    (∀ (lt : List (String × String)) (vh vlh : VDict)
        (ents : List GlinerEnt),
        ∀ a ∈ glinerPost lt vh vlh ents, dictKeys a = specFields)
      ∧ (∀ (mm : List (String × String)) (vh vlh : VDict)
          (ents : List MeshEnt),
          ∀ a ∈ meshPost mm vh vlh ents, dictKeys a = meshFields)
      ∧ (∀ (m2v : List (String × String)) (vlh : VDict)
          (rows : List T2tRow),
          ∀ a ∈ t2tPost m2v vlh rows, dictKeys a = specFields) :=
  ⟨glinerPost_keys, meshPost_keys, t2tPost_keys⟩

/-- Witness for C9: a concrete MeSH annotation carries the eleven
fields. -/
theorem C9_witness :
    dictKeys
        [("text", JValue.jstr "brain"), ("mesh_id", JValue.jstr "D1"),
         ("vocabulary_id", JValue.jstr "V1"), ("category", JValue.jstr ""),
         ("subcategory", JValue.jstr ""), ("term", JValue.jstr ""),
         ("score", JValue.jnum 1), ("keyword", JValue.jbool false),
         ("inclusion", JValue.jbool false), ("exclusion", JValue.jbool false),
         ("mapper", JValue.jstr "mesh")] = meshFields :=
  C9_amended.2.1 [("D1", "V1")] [] [] [⟨"brain", [("D1", 1)]⟩] _ (by decide)

/-- **C9 counterexample.** An annotation produced by the MeSH backend
reaches the emitted result carrying a `mesh_id` field, which is not among
the ten claimed fields — refuting "no extra field is present, regardless
of which backend produced it". -/
theorem C9_counterexample :
    (extract_annotations_model (Except.ok [])
          (Except.ok (meshPost [("D1", "V1")] [] [] [⟨"brain", [("D1", 1)]⟩]))
          (Except.ok [])).1
        = [[("text", JValue.jstr "brain"), ("mesh_id", JValue.jstr "D1"),
            ("vocabulary_id", JValue.jstr "V1"), ("category", JValue.jstr ""),
            ("subcategory", JValue.jstr ""), ("term", JValue.jstr ""),
            ("score", JValue.jnum 1), ("keyword", JValue.jbool false),
            ("inclusion", JValue.jbool false),
            ("exclusion", JValue.jbool false),
            ("mapper", JValue.jstr "mesh")]]
      ∧ "mesh_id"
        ∈ dictKeys
            [("text", JValue.jstr "brain"), ("mesh_id", JValue.jstr "D1"),
             ("vocabulary_id", JValue.jstr "V1"), ("category", JValue.jstr ""),
             ("subcategory", JValue.jstr ""), ("term", JValue.jstr ""),
             ("score", JValue.jnum 1), ("keyword", JValue.jbool false),
             ("inclusion", JValue.jbool false),
             ("exclusion", JValue.jbool false),
             ("mapper", JValue.jstr "mesh")]
      ∧ "mesh_id" ∉ specFields := by
  decide

/-! ## C10: the request envelope -/

/-- **C10 amended.** A valid JSON *object* payload lacking the `text` key
is served normally: the text defaults to the empty string and the
response is the `{"result": ...}` envelope — no input error.  The request
aborts in exactly two situations: an unparseable payload
(`json.load` raises), or a payload that parses to a non-object JSON value
(`payload.get` raises an `AttributeError`). -/
theorem C10_missing_text_defaults
    (extract : Json → List PyDict × List String)
    (fields : List (String × Json))
    (hmiss : ∀ kv ∈ fields, ¬kv.1 = "text") :
    mainModel extract (.ok (.jobj fields))
        = .ok (encodeResults (extract (.jstr "")).1)
      ∧ (∀ j : Json, (∀ fs : List (String × Json), ¬j = .jobj fs) →
          mainModel extract (.ok j) = .error .attributeError)
      ∧ mainModel extract (.error .parseError) = .error .parseError := by
  refine ⟨?_, ?_, rfl⟩
  · have hfind : (fields.find? fun kv => decide (kv.1 = "text")) = none := by
      rw [List.find?_eq_none]
      intro x hx
      simpa using hmiss x hx
    simp [mainModel, payloadText, hfind]
  · intro j hj
    cases j with
    | jobj fs => exact absurd rfl (hj fs)
    | jnull => rfl
    | jstr s => rfl
    | jnum q => rfl
    | jbool b => rfl
    | jarr xs => rfl

/-- Witness for C10 (amended): a payload object without `text` gets the
normal empty-result response. -/
theorem C10_witness :
    mainModel (fun _ => ([], [])) (.ok (.jobj [("other", Json.jnull)]))
      = .ok (encodeResults ([] : List PyDict)) :=
  (C10_missing_text_defaults (fun _ => ([], [])) [("other", Json.jnull)]
    (by simp)).1

/-- **C10 counterexample.** A payload that *is* parseable JSON but not an
object — here the array `[]` — also aborts the request
(`payload.get` raises `AttributeError`), refuting "only a payload that is
not parseable JSON aborts the request". -/
theorem C10_counterexample :
    mainModel (fun _ => ([], [])) (.ok (Json.jarr []))
        = .error PyErr.attributeError
      ∧ PyErr.attributeError ≠ PyErr.parseError :=
  ⟨rfl, by decide⟩

end ExtractAnnotations
